import Mathlib

/-!
Verification of the data-lineage-tracker core (src/lib.rs) against its
natural-language specification.

The Rust program walks a tree-sitter syntax tree of a JavaScript file and
builds a tree_sitter_graph Graph whose nodes carry string attributes
(type, name, scope, position).  This file gives a shallow embedding of
that code:

* `STree` models the tree-sitter node abstraction the code consumes:
  a kind tag, the field name under which the node sits in its parent
  (tree-sitter field children are ordinary children carrying a field
  label, so child_by_field_name searches the children), the node's
  source text (`none` models a failed utf8_text extraction), the
  0-based start position, and the child list in source order.
* `Graph` / `GraphNode` model tree_sitter_graph graphs: an ordered node
  list (node references are indices, add_graph_node appends) with
  attribute lists and outgoing edge lists.  attributes.add and add_edge
  fail (and are ignored with .ok() in the source) when the key / edge
  already exists, which the embedding mirrors by leaving the node
  unchanged in that case.
* `process_tree`, `determine_scope`, `get_full_lineage`, `analyze_file`
  and `DataLineageTracker` are direct translations of the functions of
  the same names in src/lib.rs.  Rust parent-pointer walks are
  represented by threading the ancestor chain (nearest parent first)
  through the traversal.  The Rust `process_tree` returns Result but
  has no error source (every fallible graph operation's error is
  discarded with .ok()), so the embedding returns the graph directly.
  File reading, parser configuration and parsing are external
  collaborators; `analyze_file` takes their outcomes as arguments and
  returns the updated tracker state together with the call's result.
-/

/-- The tree-sitter node abstraction consumed by the analyzer. -/
inductive STree where
  | mk (kind : String) (fieldLabel : Option String) (text : Option String)
       (row col : Nat) (children : List STree)

/-- Node kind tag, as returned by tree_sitter::Node::kind. -/
def STree.kind : STree → String
  | .mk k _ _ _ _ _ => k

/-- The field label under which this node sits in its parent, if any. -/
def STree.fieldLabel : STree → Option String
  | .mk _ f _ _ _ _ => f

/-- The node's source text; `none` models a failed utf8_text extraction. -/
def STree.text : STree → Option String
  | .mk _ _ t _ _ _ => t

/-- Zero-based start row, as in tree_sitter::Node::start_position. -/
def STree.row : STree → Nat
  | .mk _ _ _ r _ _ => r

/-- Zero-based start column, as in tree_sitter::Node::start_position. -/
def STree.col : STree → Nat
  | .mk _ _ _ _ c _ => c

/-- The children in source order (field children included, as in tree-sitter). -/
def STree.children : STree → List STree
  | .mk _ _ _ _ _ cs => cs

/-- tree_sitter::Node::child_by_field_name: the first child carrying the
given field label. -/
def STree.childByFieldLabel (t : STree) (f : String) : Option STree :=
  t.children.find? (fun c => c.fieldLabel == some f)

/-- A tree_sitter_graph graph node: attribute list and outgoing edges
(edge targets are node indices). -/
structure GraphNode where
  attrs : List (String × String)
  edges : List Nat
deriving DecidableEq

/-- A tree_sitter_graph graph: the node list in creation order; a node
reference is an index into this list. -/
structure Graph where
  nodes : List GraphNode
deriving DecidableEq

/-- Attributes::add — fails (leaving the node unchanged) if the key is
already present, mirroring the .ok()-discarded Err of the library. -/
def GraphNode.addAttr (n : GraphNode) (key val : String) : GraphNode :=
  if (n.attrs.lookup key).isSome then n else { n with attrs := n.attrs ++ [(key, val)] }

/-- GraphNode::add_edge — fails (leaving the node unchanged) if the edge
already exists. -/
def GraphNode.addEdge (n : GraphNode) (target : Nat) : GraphNode :=
  if n.edges.contains target then n else { n with edges := n.edges ++ [target] }

/-- Graph::add_graph_node: appends a fresh attribute-less node and
returns its reference (its index). -/
def Graph.addGraphNode (g : Graph) : Graph × Nat :=
  ({ nodes := g.nodes ++ [{ attrs := [], edges := [] }] }, g.nodes.length)

/-- Replace the element at an index by applying `f` (no change when the
index is out of range). -/
def listModify (f : α → α) : List α → Nat → List α
  | [], _ => []
  | x :: xs, 0 => f x :: xs
  | x :: xs, n + 1 => x :: listModify f xs n

/-- Mutate the graph node behind a reference, as `&mut graph[r]` does. -/
def Graph.modifyAt (g : Graph) (i : Nat) (f : GraphNode → GraphNode) : Graph :=
  { nodes := listModify f g.nodes i }

/-- The three scope-introducing node kinds matched in src/lib.rs. -/
def scopeDefiningKind (k : String) : Bool :=
  k == "function_declaration" || k == "method_definition" || k == "class_declaration"

/-- determine_scope (src/lib.rs lines 176-200).  The Rust walks parent
pointers from `node.parent()` to the root; here that chain is the
`ancestors` argument, nearest parent first.  Scope-defining ancestors
with an extractable name are collected innermost-first, the list is
reversed, and joined with "::"; the sentinel "global" is returned when
nothing was collected. -/
def determine_scope (ancestors : List STree) : String :=
  let scope_parts : List String := ancestors.filterMap (fun n =>
    if scopeDefiningKind n.kind then
      match n.childByFieldLabel "name" with
      | some name_node =>
        match name_node.text with
        | some name => some name
        | none => none
      | none => none
    else none)
  let parts := scope_parts.reverse
  if parts.isEmpty then "global" else String.intercalate "::" parts

/-- The position attribute string: format!("{},{}", row + 1, column + 1). -/
def posString (row col : Nat) : String :=
  toString (row + 1) ++ "," ++ toString (col + 1)

mutual
/-- process_tree (src/lib.rs lines 62-174).  First a scope graph node is
created when the tree node is scope-defining and has an extractable
name (otherwise the parent reference is kept); then the node is
classified as declarator / identifier, adding a declaration or
reference graph node under the current scope reference; finally every
child is processed in source order.  `ancestors` is the tree-parent
chain of `node`, nearest first. -/
def process_tree : STree → List STree → Graph → Nat → Graph
  | node@(.mk nkind _ ntext nrow ncol nchildren), ancestors, g, parent_ref =>
    let step1 : Graph × Nat :=
      if scopeDefiningKind nkind then
        match node.childByFieldLabel "name" with
        | some name_node =>
          match name_node.text with
          | some name =>
            let p := g.addGraphNode
            let g1 := p.1.modifyAt parent_ref (fun n => n.addEdge p.2)
            let g2 := g1.modifyAt p.2 (fun n => (n.addAttr "type" "scope").addAttr "name" name)
            (g2, p.2)
          | none => (g, parent_ref)
        | none => (g, parent_ref)
      else (g, parent_ref)
    let current_scope_ref := step1.2
    let g3 :=
      if nkind == "variable_declarator" then
        match node.childByFieldLabel "name" with
        | some name_node =>
          match name_node.text with
          | some name =>
            let scope := determine_scope ancestors
            let p := step1.1.addGraphNode
            let ga := p.1.modifyAt current_scope_ref (fun n => n.addEdge p.2)
            ga.modifyAt p.2 (fun n =>
              (((n.addAttr "type" "declaration").addAttr "name" name).addAttr
                "scope" scope).addAttr "position" (posString name_node.row name_node.col))
          | none => step1.1
        | none => step1.1
      else if nkind == "identifier" then
        match ntext with
        | some name =>
          let scope := determine_scope ancestors
          let p := step1.1.addGraphNode
          let ga := p.1.modifyAt current_scope_ref (fun n => n.addEdge p.2)
          ga.modifyAt p.2 (fun n =>
            (((n.addAttr "type" "reference").addAttr "name" name).addAttr
              "scope" scope).addAttr "position" (posString nrow ncol))
        | none => step1.1
      else step1.1
    process_children nchildren (node :: ancestors) g3 current_scope_ref

/-- The child loop at the end of process_tree: each child is processed
in source order against the current scope reference. -/
def process_children : List STree → List STree → Graph → Nat → Graph
  | [], _, g, _ => g
  | c :: cs, ancestors, g, r => process_children cs ancestors (process_tree c ancestors g r) r
end

/-- Loop 1 of get_full_lineage: one "Declared in scope" line per graph
node of type "declaration" carrying the queried name (and a scope
attribute), in graph-node order. -/
def declLinesFor (g : Graph) (variable_name : String) : List String :=
  g.nodes.filterMap (fun node =>
    match node.attrs.lookup "type", node.attrs.lookup "name" with
    | some node_type, some name =>
      if node_type == "declaration" && name == variable_name then
        match node.attrs.lookup "scope" with
        | some scope => some ("Declared in scope: " ++ scope)
        | none => none
      else none
    | _, _ => none)

/-- Loop 2 of get_full_lineage: one "Referenced in scope" line per graph
node of type "reference" carrying the queried name (and a scope
attribute), in graph-node order. -/
def refLinesFor (g : Graph) (variable_name : String) : List String :=
  g.nodes.filterMap (fun node =>
    match node.attrs.lookup "type", node.attrs.lookup "name" with
    | some node_type, some name =>
      if node_type == "reference" && name == variable_name then
        match node.attrs.lookup "scope" with
        | some scope => some ("Referenced in scope: " ++ scope)
        | none => none
      else none
    | _, _ => none)

/-- get_full_lineage (src/lib.rs lines 202-250): the first loop pushes
all declaration lines, the second all reference lines, onto one vector
— i.e. the two line lists appended. -/
def get_full_lineage (g : Graph) (variable_name : String) : List String :=
  declLinesFor g variable_name ++ refLinesFor g variable_name

/-- The DataLineageTracker struct: graph, stored parse tree, source text. -/
structure DataLineageTracker where
  graph : Graph
  tree : Option STree
  source_code : String

/-- DataLineageTracker::new: empty graph, no tree, empty source. -/
def DataLineageTracker.new : DataLineageTracker :=
  { graph := { nodes := [] }, tree := none, source_code := "" }

/-- analyze_file (src/lib.rs lines 23-60).  The external collaborators
are passed as arguments: `readResult` is the outcome of
fs::read_to_string, `setLanguageResult` of Parser::set_language, and
`parse` maps the stored source to `some` tree or `none` on parse
failure.  Mirroring the Rust control flow: the source text is stored
first, each failure propagates immediately, a fresh graph with a root
node is built, the stored tree is processed against it, and only after
successful processing is the tracker's graph replaced.  Returns the
post-call tracker state and the call's result. -/
def analyze_file (t : DataLineageTracker) (readResult : Except String String)
    (setLanguageResult : Except String Unit) (parse : String → Option STree) :
    DataLineageTracker × Except String Unit :=
  match readResult with
  | .error e => (t, .error e)
  | .ok contents =>
    let t1 := { t with source_code := contents }
    match setLanguageResult with
    | .error e => (t1, .error e)
    | .ok _ =>
      match parse t1.source_code with
      | none => (t1, .error "Failed to parse source code")
      | some tr =>
        let t2 := { t1 with tree := some tr }
        let p := (Graph.mk []).addGraphNode
        let g1 := p.1.modifyAt p.2 (fun n => n.addAttr "type" "root")
        match t2.tree with
        | some tr2 =>
          let g2 := process_tree tr2 [] g1 p.2
          ({ t2 with graph := g2 }, .ok ())
        | none => (t2, .ok ())

/-- Run a successful analysis of the given parse tree on a fresh
tracker and return the resulting graph. -/
def runGraph (tr : STree) : Graph :=
  (analyze_file DataLineageTracker.new (Except.ok "") (Except.ok ()) (fun _ => some tr)).1.graph

/-!
Concrete analysis inputs, mirroring tree-sitter-javascript parse trees
(field children such as a declarator's name appear among the ordinary
children, labelled with their field).  Positions are 0-based as in
tree-sitter.
-/

/-- Parse tree of `x; let x = 1;` — an identifier occurrence of `x`
preceding the declarator of `x` in pre-order. -/
def ex1 : STree :=
  .mk "program" none none 0 0
    [.mk "expression_statement" none none 0 0
      [.mk "identifier" none (some "x") 0 0 []],
     .mk "lexical_declaration" none none 0 3
      [.mk "variable_declarator" none none 0 7
        [.mk "identifier" (some "name") (some "x") 0 7 [],
         .mk "number" (some "value") (some "1") 0 11 []]]]

/-- Parse tree of `let x = 1;` followed by `let x = 2;` — two declarators
with the same name. -/
def ex2 : STree :=
  .mk "program" none none 0 0
    [.mk "lexical_declaration" none none 0 0
      [.mk "variable_declarator" none none 0 4
        [.mk "identifier" (some "name") (some "x") 0 4 [],
         .mk "number" (some "value") (some "1") 0 8 []]],
     .mk "lexical_declaration" none none 1 0
      [.mk "variable_declarator" none none 1 4
        [.mk "identifier" (some "name") (some "x") 1 4 [],
         .mk "number" (some "value") (some "2") 1 8 []]]]

/-- Parse tree of `function outer() {}` — a name (`outer`) that occurs as
an identifier but is never introduced by a variable_declarator. -/
def ex3 : STree :=
  .mk "program" none none 0 0
    [.mk "function_declaration" none none 0 0
      [.mk "identifier" (some "name") (some "outer") 0 9 [],
       .mk "formal_parameters" (some "parameters") none 0 14 [],
       .mk "statement_block" (some "body") none 0 17 []]]

/-!
Observers over finished graphs, i.e. the Registry notions of the
specification read off the graph representation: a Declaration is a graph
node of type "declaration", a Reference a node of type "reference",
keyed by their "name" attribute.  Graph-node order is creation order
(add_graph_node appends), which is the traversal's pre-order encounter
order.
-/

/-- Attribute lists marking a declaration entry for `name`. -/
def isDeclAttrs (a : List (String × String)) (name : String) : Bool :=
  a.lookup "type" == some "declaration" && a.lookup "name" == some name

/-- Attribute lists marking a reference entry for `name`. -/
def isRefAttrs (a : List (String × String)) (name : String) : Bool :=
  a.lookup "type" == some "reference" && a.lookup "name" == some name

/-- Number of declaration entries for `name` in the graph. -/
def declCount (g : Graph) (name : String) : Nat :=
  g.nodes.countP (fun n => isDeclAttrs n.attrs name)

/-- Number of reference entries for `name` in the graph. -/
def refCount (g : Graph) (name : String) : Nat :=
  g.nodes.countP (fun n => isRefAttrs n.attrs name)

/-- The scope attributes of the declaration entries for `name`, in
recorded (creation) order. -/
def declScopes (g : Graph) (name : String) : List String :=
  g.nodes.filterMap (fun n => if isDeclAttrs n.attrs name then n.attrs.lookup "scope" else none)

/-- The scope attributes of the reference entries for `name`, in
recorded (creation) order. -/
def refScopes (g : Graph) (name : String) : List String :=
  g.nodes.filterMap (fun n => if isRefAttrs n.attrs name then n.attrs.lookup "scope" else none)

/-- Claim C1 as a predicate on a finished graph: every reference entry
for `name` was recorded at a point where a declaration entry for `name`
already existed, i.e. only at a creation index strictly greater than
that of some declaration entry. -/
def refsOnlyAfterDecl (g : Graph) (name : String) : Prop :=
  ∀ i : Fin g.nodes.length, isRefAttrs (g.nodes.get i).attrs name = true →
    ∃ j : Fin g.nodes.length, j.val < i.val ∧ isDeclAttrs (g.nodes.get j).attrs name = true

instance (g : Graph) (name : String) : Decidable (refsOnlyAfterDecl g name) := by
  unfold refsOnlyAfterDecl; infer_instance

mutual
/-- Number of identifier-kind nodes with extractable text equal to
`name` in the subtree rooted at the given node (the node included). -/
def identOcc : STree → String → Nat
  | .mk k _ tx _ _ cs, name =>
    (if k == "identifier" && tx == some name then 1 else 0) + identOccList cs name

/-- The counter identOcc summed over a list of subtrees. -/
def identOccList : List STree → String → Nat
  | [], _ => 0
  | c :: cs, name => identOcc c name + identOccList cs name
end

mutual
/-- Number of variable_declarator nodes whose name field has extractable
text equal to `name` in the subtree rooted at the given node. -/
def declOcc : STree → String → Nat
  | node@(.mk k _ _ _ _ cs), name =>
    (if k == "variable_declarator" then
      match node.childByFieldLabel "name" with
      | some nn =>
        match nn.text with
        | some nm => if nm == name then 1 else 0
        | none => 0
      | none => 0
    else 0) + declOccList cs name

/-- The counter declOcc summed over a list of subtrees. -/
def declOccList : List STree → String → Nat
  | [], _ => 0
  | c :: cs, name => declOcc c name + declOccList cs name
end

/-- Modelled from the spec (§4.1, claim C5): the name contributed by an
ancestor to the scope path — present exactly when the ancestor is
scope-introducing (function declaration, method definition, class
declaration) and its name field is present with extractable text. -/
def scopeAncestorName (n : STree) : Option String :=
  if scopeDefiningKind n.kind then (n.childByFieldLabel "name").bind STree.text else none

/-- Modelled from the spec (§4.1, claim C5): collect the named
scope-introducing ancestors outermost-first (the ancestor chain is given
nearest-parent-first, so outermost-first is its reversal), join with
"::", and fall back to the sentinel "global" when nothing was
collected. -/
def specScopePath (ancestors : List STree) : String :=
  let outermostFirst := ancestors.reverse.filterMap scopeAncestorName
  if outermostFirst = [] then "global" else String.intercalate "::" outermostFirst

/-!
Counting machinery: how one traversal step changes the multiset of
attribute lists in the graph.  `contribT pA t anc` predicts, for an
attribute-list predicate `pA`, how many graph nodes satisfying `pA` the
traversal of subtree `t` (with ancestor chain `anc`) appends.
-/

/-- Count of graph nodes whose attribute list satisfies `pA`. -/
def countAttrs (pA : List (String × String) → Bool) (g : Graph) : Nat :=
  List.countP pA (g.nodes.map GraphNode.attrs)

mutual
/-- Number of graph nodes satisfying `pA` created while traversing the
subtree rooted at the given node with ancestor chain `anc`: one scope
node for a named scope-defining node, one declaration node for a named
declarator, one reference node for an identifier with extractable text,
plus the children's contributions. -/
def contribT (pA : List (String × String) → Bool) : STree → List STree → Nat
  | node@(.mk k _ tx row col cs), anc =>
    (if scopeDefiningKind k then
      match node.childByFieldLabel "name" with
      | some nn =>
        match nn.text with
        | some nm => if pA [("type", "scope"), ("name", nm)] then 1 else 0
        | none => 0
      | none => 0
    else 0)
    + (if k == "variable_declarator" then
        match node.childByFieldLabel "name" with
        | some nn =>
          match nn.text with
          | some nm =>
            if pA [("type", "declaration"), ("name", nm), ("scope", determine_scope anc),
                ("position", posString nn.row nn.col)] then 1 else 0
          | none => 0
        | none => 0
      else 0)
    + (if k == "identifier" then
        match tx with
        | some nm =>
          if pA [("type", "reference"), ("name", nm), ("scope", determine_scope anc),
              ("position", posString row col)] then 1 else 0
        | none => 0
      else 0)
    + contribL pA cs (node :: anc)

/-- The contribution contribT summed over a list of subtrees. -/
def contribL (pA : List (String × String) → Bool) : List STree → List STree → Nat
  | [], _ => 0
  | c :: cs, anc => contribT pA c anc + contribL pA cs anc
end

/-- The attribute-list effect of Attributes::add. -/
def addAttrList (a : List (String × String)) (key val : String) : List (String × String) :=
  if (a.lookup key).isSome then a else a ++ [(key, val)]

/-- A tracker with non-trivial prior state, used to exhibit that the
analysis result does not depend on the state before the call. -/
def staleTracker : DataLineageTracker :=
  { graph := { nodes := [{ attrs := [("type", "root")], edges := [] }] },
    tree := none, source_code := "old contents" }

/-- add_edge never changes the attribute list. -/
theorem addEdge_attrs (n : GraphNode) (t : Nat) : (n.addEdge t).attrs = n.attrs := by
  unfold GraphNode.addEdge; split <;> rfl

/-- addAttr acts on the attribute list as `addAttrList`. -/
theorem addAttr_attrs (n : GraphNode) (k v : String) :
    (n.addAttr k v).attrs = addAttrList n.attrs k v := by
  unfold GraphNode.addAttr addAttrList; split <;> rfl

/-- The function listModify commutes with a map that the modification respects. -/
theorem map_listModify (m : α → β) (f : α → α) (fA : β → β)
    (hf : ∀ x, m (f x) = fA (m x)) :
    ∀ (l : List α) (i : Nat), (listModify f l i).map m = listModify fA (l.map m) i := by
  intro l
  induction l with
  | nil => intro i; rfl
  | cons x xs ih =>
    intro i
    cases i with
    | zero => simp [listModify, hf]
    | succ n => simp [listModify, ih]

/-- Modifying with the identity is the identity. -/
theorem listModify_id_eq : ∀ (l : List α) (i : Nat), listModify (fun x => x) l i = l := by
  intro l
  induction l with
  | nil => intro i; rfl
  | cons x xs ih => intro i; cases i with
    | zero => rfl
    | succ n => simp [listModify, ih]

/-- Modifying the appended last element. -/
theorem listModify_append_length (f : α → α) (l : List α) (x : α) :
    listModify f (l ++ [x]) l.length = l ++ [f x] := by
  induction l with
  | nil => rfl
  | cons y ys ih => simp [listModify, ih]

/-- The attribute lists after one add-node / add-edge / set-attributes
step of process_tree: the old attribute lists followed by the attribute
chain applied to the empty list. -/
theorem step_attrs_map (g : Graph) (r : Nat) (chain : GraphNode → GraphNode)
    (chainA : List (String × String) → List (String × String))
    (hchain : ∀ n, (chain n).attrs = chainA n.attrs) :
    ((g.addGraphNode.1.modifyAt r (fun n => n.addEdge g.addGraphNode.2)).modifyAt
        g.addGraphNode.2 chain).nodes.map GraphNode.attrs
      = g.nodes.map GraphNode.attrs ++ [chainA []] := by
  unfold Graph.addGraphNode Graph.modifyAt
  simp only
  rw [map_listModify GraphNode.attrs chain chainA hchain]
  rw [map_listModify GraphNode.attrs _ (fun a => a) (fun x => addEdge_attrs x _)]
  rw [listModify_id_eq]
  rw [List.map_append]
  rw [show g.nodes.length = (g.nodes.map GraphNode.attrs).length from
    (List.length_map _ _).symm]
  rw [show List.map GraphNode.attrs [{ attrs := [], edges := [] }]
      = [([] : List (String × String))] from rfl]
  rw [listModify_append_length]

/-- The effect of one add-node step on the `pA`-count. -/
theorem countAttrs_step (pA : List (String × String) → Bool) (g : Graph) (r : Nat)
    (chain : GraphNode → GraphNode)
    (chainA : List (String × String) → List (String × String))
    (hchain : ∀ n, (chain n).attrs = chainA n.attrs) :
    countAttrs pA ((g.addGraphNode.1.modifyAt r (fun n => n.addEdge g.addGraphNode.2)).modifyAt
        g.addGraphNode.2 chain)
      = countAttrs pA g + (if pA (chainA []) then 1 else 0) := by
  unfold countAttrs
  rw [step_attrs_map g r chain chainA hchain]
  simp [List.countP_append, List.countP_cons]

/-- Specialized step count: creating a scope node. -/
theorem countAttrs_scope_step (pA : List (String × String) → Bool) (g : Graph) (r : Nat)
    (nm : String) :
    countAttrs pA ((g.addGraphNode.1.modifyAt r (fun n => n.addEdge g.addGraphNode.2)).modifyAt
        g.addGraphNode.2 (fun n => (n.addAttr "type" "scope").addAttr "name" nm))
      = countAttrs pA g + (if pA [("type", "scope"), ("name", nm)] then 1 else 0) := by
  rw [countAttrs_step pA g r _ (fun a => addAttrList (addAttrList a "type" "scope") "name" nm)
    (fun n => by rw [addAttr_attrs, addAttr_attrs])]
  rfl

/-- Specialized step count: creating a declaration node. -/
theorem countAttrs_decl_step (pA : List (String × String) → Bool) (g : Graph) (r : Nat)
    (nm sc ps : String) :
    countAttrs pA ((g.addGraphNode.1.modifyAt r (fun n => n.addEdge g.addGraphNode.2)).modifyAt
        g.addGraphNode.2 (fun n =>
          (((n.addAttr "type" "declaration").addAttr "name" nm).addAttr
            "scope" sc).addAttr "position" ps))
      = countAttrs pA g
        + (if pA [("type", "declaration"), ("name", nm), ("scope", sc), ("position", ps)]
            then 1 else 0) := by
  rw [countAttrs_step pA g r _
    (fun a => addAttrList (addAttrList (addAttrList (addAttrList a "type" "declaration")
      "name" nm) "scope" sc) "position" ps)
    (fun n => by rw [addAttr_attrs, addAttr_attrs, addAttr_attrs, addAttr_attrs])]
  rfl

/-- Specialized step count: creating a reference node. -/
theorem countAttrs_ref_step (pA : List (String × String) → Bool) (g : Graph) (r : Nat)
    (nm sc ps : String) :
    countAttrs pA ((g.addGraphNode.1.modifyAt r (fun n => n.addEdge g.addGraphNode.2)).modifyAt
        g.addGraphNode.2 (fun n =>
          (((n.addAttr "type" "reference").addAttr "name" nm).addAttr
            "scope" sc).addAttr "position" ps))
      = countAttrs pA g
        + (if pA [("type", "reference"), ("name", nm), ("scope", sc), ("position", ps)]
            then 1 else 0) := by
  rw [countAttrs_step pA g r _
    (fun a => addAttrList (addAttrList (addAttrList (addAttrList a "type" "reference")
      "name" nm) "scope" sc) "position" ps)
    (fun n => by rw [addAttr_attrs, addAttr_attrs, addAttr_attrs, addAttr_attrs])]
  rfl

/-- Every kind string falls in one of the six traversal-relevant cases. -/
theorem kind_cases (k : String) :
    k = "function_declaration" ∨ k = "method_definition" ∨ k = "class_declaration" ∨
    k = "variable_declarator" ∨ k = "identifier" ∨
    (scopeDefiningKind k = false ∧ (k == "variable_declarator") = false ∧
      (k == "identifier") = false) := by
  by_cases h1 : k = "function_declaration"
  · exact Or.inl h1
  by_cases h2 : k = "method_definition"
  · exact Or.inr (Or.inl h2)
  by_cases h3 : k = "class_declaration"
  · exact Or.inr (Or.inr (Or.inl h3))
  by_cases h4 : k = "variable_declarator"
  · exact Or.inr (Or.inr (Or.inr (Or.inl h4)))
  by_cases h5 : k = "identifier"
  · exact Or.inr (Or.inr (Or.inr (Or.inr (Or.inl h5))))
  refine Or.inr (Or.inr (Or.inr (Or.inr (Or.inr ⟨?_, ?_, ?_⟩))))
  · simp [scopeDefiningKind, h1, h2, h3]
  · simp [h4]
  · simp [h5]

/-- Traversal count, case of a scope-defining node. -/
theorem countAttrs_case_scope (pA : List (String × String) → Bool)
    (k : String) (fl tx : Option String) (row col : Nat) (cs : List STree)
    (anc : List STree) (g : Graph) (r : Nat)
    (hsk : scopeDefiningKind k = true)
    (hvd : (k == "variable_declarator") = false)
    (hid : (k == "identifier") = false)
    (IH : ∀ (g2 : Graph) (r2 : Nat),
      countAttrs pA (process_children cs (STree.mk k fl tx row col cs :: anc) g2 r2)
        = countAttrs pA g2 + contribL pA cs (STree.mk k fl tx row col cs :: anc)) :
    countAttrs pA (process_tree (STree.mk k fl tx row col cs) anc g r)
      = countAttrs pA g + contribT pA (STree.mk k fl tx row col cs) anc := by
  rcases hnn : (STree.mk k fl tx row col cs).childByFieldLabel "name" with _ | nn
  · simp only [process_tree, hsk, hnn, hvd, hid, if_true, if_false, Bool.false_eq_true]
    rw [IH]
    simp [contribT, hsk, hnn, hvd, hid]
  · rcases htx : nn.text with _ | nm
    · simp only [process_tree, hsk, hnn, htx, hvd, hid, if_true, if_false, Bool.false_eq_true]
      rw [IH]
      simp [contribT, hsk, hnn, htx, hvd, hid]
    · simp only [process_tree, hsk, hnn, htx, hvd, hid, if_true, if_false, Bool.false_eq_true]
      rw [IH]
      rw [countAttrs_scope_step]
      simp only [contribT, hsk, hnn, htx, hvd, hid, if_true, if_false, Bool.false_eq_true]
      omega

/-- Traversal count, case of a variable_declarator node. -/
theorem countAttrs_case_declarator (pA : List (String × String) → Bool)
    (fl tx : Option String) (row col : Nat) (cs : List STree)
    (anc : List STree) (g : Graph) (r : Nat)
    (IH : ∀ (g2 : Graph) (r2 : Nat),
      countAttrs pA (process_children cs
          (STree.mk "variable_declarator" fl tx row col cs :: anc) g2 r2)
        = countAttrs pA g2
          + contribL pA cs (STree.mk "variable_declarator" fl tx row col cs :: anc)) :
    countAttrs pA (process_tree (STree.mk "variable_declarator" fl tx row col cs) anc g r)
      = countAttrs pA g + contribT pA (STree.mk "variable_declarator" fl tx row col cs) anc := by
  have e1 : scopeDefiningKind "variable_declarator" = false := rfl
  have e2 : (("variable_declarator" : String) == "variable_declarator") = true := rfl
  have e3 : (("variable_declarator" : String) == "identifier") = false := rfl
  rcases hnn : (STree.mk "variable_declarator" fl tx row col cs).childByFieldLabel "name"
    with _ | nn
  · simp only [process_tree, e1, e2, e3, hnn, if_true, if_false, Bool.false_eq_true]
    rw [IH]
    simp [contribT, e1, e2, e3, hnn]
  · rcases htx : nn.text with _ | nm
    · simp only [process_tree, e1, e2, e3, hnn, htx, if_true, if_false, Bool.false_eq_true]
      rw [IH]
      simp [contribT, e1, e2, e3, hnn, htx]
    · simp only [process_tree, e1, e2, e3, hnn, htx, if_true, if_false, Bool.false_eq_true]
      rw [IH]
      rw [countAttrs_decl_step]
      simp only [contribT, e1, e2, e3, hnn, htx, if_true, if_false, Bool.false_eq_true]
      omega

/-- Traversal count, case of an identifier node. -/
theorem countAttrs_case_identifier (pA : List (String × String) → Bool)
    (fl tx : Option String) (row col : Nat) (cs : List STree)
    (anc : List STree) (g : Graph) (r : Nat)
    (IH : ∀ (g2 : Graph) (r2 : Nat),
      countAttrs pA (process_children cs
          (STree.mk "identifier" fl tx row col cs :: anc) g2 r2)
        = countAttrs pA g2
          + contribL pA cs (STree.mk "identifier" fl tx row col cs :: anc)) :
    countAttrs pA (process_tree (STree.mk "identifier" fl tx row col cs) anc g r)
      = countAttrs pA g + contribT pA (STree.mk "identifier" fl tx row col cs) anc := by
  have e1 : scopeDefiningKind "identifier" = false := rfl
  have e2 : (("identifier" : String) == "variable_declarator") = false := rfl
  have e3 : (("identifier" : String) == "identifier") = true := rfl
  rcases tx with _ | nm
  · simp only [process_tree, e1, e2, e3, if_true, if_false, Bool.false_eq_true]
    rw [IH]
    simp [contribT, e1, e2, e3]
  · simp only [process_tree, e1, e2, e3, if_true, if_false, Bool.false_eq_true]
    rw [IH]
    rw [countAttrs_ref_step]
    simp only [contribT, e1, e2, e3, if_true, if_false, Bool.false_eq_true]
    omega

/-- Traversal count, case of a node of any other kind. -/
theorem countAttrs_case_other (pA : List (String × String) → Bool)
    (k : String) (fl tx : Option String) (row col : Nat) (cs : List STree)
    (anc : List STree) (g : Graph) (r : Nat)
    (h1 : scopeDefiningKind k = false)
    (h2 : (k == "variable_declarator") = false)
    (h3 : (k == "identifier") = false)
    (IH : ∀ (g2 : Graph) (r2 : Nat),
      countAttrs pA (process_children cs (STree.mk k fl tx row col cs :: anc) g2 r2)
        = countAttrs pA g2 + contribL pA cs (STree.mk k fl tx row col cs :: anc)) :
    countAttrs pA (process_tree (STree.mk k fl tx row col cs) anc g r)
      = countAttrs pA g + contribT pA (STree.mk k fl tx row col cs) anc := by
  simp only [process_tree, h1, h2, h3, if_true, if_false, Bool.false_eq_true]
  rw [IH]
  simp [contribT, h1, h2, h3]

mutual
/-- The traversal of a subtree appends exactly `contribT pA` graph nodes
satisfying an attribute predicate `pA`, regardless of the prior graph
contents or the parent reference. -/
theorem countAttrs_process_tree (pA : List (String × String) → Bool) (t : STree)
    (anc : List STree) (g : Graph) (r : Nat) :
    countAttrs pA (process_tree t anc g r) = countAttrs pA g + contribT pA t anc := by
  cases t with
  | mk k fl tx row col cs =>
    have IH : ∀ (g2 : Graph) (r2 : Nat),
        countAttrs pA (process_children cs (STree.mk k fl tx row col cs :: anc) g2 r2)
          = countAttrs pA g2 + contribL pA cs (STree.mk k fl tx row col cs :: anc) :=
      fun g2 r2 => countAttrs_process_children pA cs (STree.mk k fl tx row col cs :: anc) g2 r2
    rcases kind_cases k with rfl | rfl | rfl | rfl | rfl | ⟨h1, h2, h3⟩
    · exact countAttrs_case_scope pA _ fl tx row col cs anc g r rfl rfl rfl IH
    · exact countAttrs_case_scope pA _ fl tx row col cs anc g r rfl rfl rfl IH
    · exact countAttrs_case_scope pA _ fl tx row col cs anc g r rfl rfl rfl IH
    · exact countAttrs_case_declarator pA fl tx row col cs anc g r IH
    · exact countAttrs_case_identifier pA fl tx row col cs anc g r IH
    · exact countAttrs_case_other pA k fl tx row col cs anc g r h1 h2 h3 IH

/-- The child loop appends exactly `contribL pA` matching graph nodes. -/
theorem countAttrs_process_children (pA : List (String × String) → Bool) (ts : List STree)
    (anc : List STree) (g : Graph) (r : Nat) :
    countAttrs pA (process_children ts anc g r) = countAttrs pA g + contribL pA ts anc := by
  cases ts with
  | nil => simp [process_children, contribL]
  | cons c cs =>
    show countAttrs pA (process_children cs anc (process_tree c anc g r) r)
      = countAttrs pA g + contribL pA (c :: cs) anc
    rw [countAttrs_process_children pA cs anc (process_tree c anc g r) r]
    rw [countAttrs_process_tree pA c anc g r]
    simp only [contribL]
    omega
end

/-- A scope node's attributes never form a reference entry. -/
theorem isRefAttrs_scopeNode (nm vn : String) :
    isRefAttrs [("type", "scope"), ("name", nm)] vn = false := rfl

/-- A declaration node's attributes never form a reference entry. -/
theorem isRefAttrs_declNode (nm sc ps vn : String) :
    isRefAttrs [("type", "declaration"), ("name", nm), ("scope", sc), ("position", ps)] vn
      = false := rfl

/-- A reference node's attributes form a reference entry exactly for its
own name. -/
theorem isRefAttrs_refNode (nm sc ps vn : String) :
    isRefAttrs [("type", "reference"), ("name", nm), ("scope", sc), ("position", ps)] vn
      = (nm == vn) := rfl

/-- A scope node's attributes never form a declaration entry. -/
theorem isDeclAttrs_scopeNode (nm vn : String) :
    isDeclAttrs [("type", "scope"), ("name", nm)] vn = false := rfl

/-- A declaration node's attributes form a declaration entry exactly for
its own name. -/
theorem isDeclAttrs_declNode (nm sc ps vn : String) :
    isDeclAttrs [("type", "declaration"), ("name", nm), ("scope", sc), ("position", ps)] vn
      = (nm == vn) := rfl

/-- A reference node's attributes never form a declaration entry. -/
theorem isDeclAttrs_refNode (nm sc ps vn : String) :
    isDeclAttrs [("type", "reference"), ("name", nm), ("scope", sc), ("position", ps)] vn
      = false := rfl

mutual
/-- The reference-entry contribution of a subtree is the number of its
identifier nodes with extractable text equal to the queried name. -/
theorem contribT_isRef (vn : String) (t : STree) (anc : List STree) :
    contribT (fun a => isRefAttrs a vn) t anc = identOcc t vn := by
  cases t with
  | mk k fl tx row col cs =>
    simp only [contribT, identOcc]
    rw [contribL_isRef vn cs]
    repeat' split
    all_goals
      simp_all [isRefAttrs_scopeNode, isRefAttrs_declNode, isRefAttrs_refNode]

/-- The collapse contribT_isRef summed over a list of subtrees. -/
theorem contribL_isRef (vn : String) (ts : List STree) (anc : List STree) :
    contribL (fun a => isRefAttrs a vn) ts anc = identOccList ts vn := by
  cases ts with
  | nil => rfl
  | cons c cs =>
    show contribT (fun a => isRefAttrs a vn) c anc + contribL (fun a => isRefAttrs a vn) cs anc
      = identOcc c vn + identOccList cs vn
    rw [contribT_isRef vn c anc, contribL_isRef vn cs anc]
end

mutual
/-- The declaration-entry contribution of a subtree is the number of its
variable_declarator nodes whose name field carries the queried name. -/
theorem contribT_isDecl (vn : String) (t : STree) (anc : List STree) :
    contribT (fun a => isDeclAttrs a vn) t anc = declOcc t vn := by
  cases t with
  | mk k fl tx row col cs =>
    simp only [contribT, declOcc]
    rw [contribL_isDecl vn cs]
    repeat' split
    all_goals
      simp_all [isDeclAttrs_scopeNode, isDeclAttrs_declNode, isDeclAttrs_refNode]

/-- The collapse contribT_isDecl summed over a list of subtrees. -/
theorem contribL_isDecl (vn : String) (ts : List STree) (anc : List STree) :
    contribL (fun a => isDeclAttrs a vn) ts anc = declOccList ts vn := by
  cases ts with
  | nil => rfl
  | cons c cs =>
    show contribT (fun a => isDeclAttrs a vn) c anc + contribL (fun a => isDeclAttrs a vn) cs anc
      = declOcc c vn + declOccList cs vn
    rw [contribT_isDecl vn c anc, contribL_isDecl vn cs anc]
end

/-- The observer refCount is countAttrs of the reference-entry predicate. -/
theorem refCount_eq_countAttrs (g : Graph) (vn : String) :
    refCount g vn = countAttrs (fun a => isRefAttrs a vn) g := by
  unfold refCount countAttrs
  rw [List.countP_map]
  rfl

/-- The observer declCount is countAttrs of the declaration-entry predicate. -/
theorem declCount_eq_countAttrs (g : Graph) (vn : String) :
    declCount g vn = countAttrs (fun a => isDeclAttrs a vn) g := by
  unfold declCount countAttrs
  rw [List.countP_map]
  rfl

/-- Pointwise form of loop 1 of get_full_lineage: a node yields a
"Declared" line exactly when it is a declaration entry with a scope
attribute. -/
theorem declLine_pointwise (vn : String) (node : GraphNode) :
    (match node.attrs.lookup "type", node.attrs.lookup "name" with
      | some node_type, some name =>
        if node_type == "declaration" && name == vn then
          match node.attrs.lookup "scope" with
          | some scope => some ("Declared in scope: " ++ scope)
          | none => none
        else none
      | _, _ => none)
      = (if isDeclAttrs node.attrs vn then node.attrs.lookup "scope" else none).map
          (fun s => "Declared in scope: " ++ s) := by
  unfold isDeclAttrs
  rcases h1 : node.attrs.lookup "type" with _ | ty <;>
    rcases h2 : node.attrs.lookup "name" with _ | nm <;>
    simp [h1, h2] <;>
    rcases h3 : node.attrs.lookup "scope" with _ | sc <;>
    split <;>
    simp_all

/-- Pointwise form of loop 2 of get_full_lineage. -/
theorem refLine_pointwise (vn : String) (node : GraphNode) :
    (match node.attrs.lookup "type", node.attrs.lookup "name" with
      | some node_type, some name =>
        if node_type == "reference" && name == vn then
          match node.attrs.lookup "scope" with
          | some scope => some ("Referenced in scope: " ++ scope)
          | none => none
        else none
      | _, _ => none)
      = (if isRefAttrs node.attrs vn then node.attrs.lookup "scope" else none).map
          (fun s => "Referenced in scope: " ++ s) := by
  unfold isRefAttrs
  rcases h1 : node.attrs.lookup "type" with _ | ty <;>
    rcases h2 : node.attrs.lookup "name" with _ | nm <;>
    simp [h1, h2] <;>
    rcases h3 : node.attrs.lookup "scope" with _ | sc <;>
    split <;>
    simp_all

/-- Loop 1 produces exactly the declaration scopes, each prefixed. -/
theorem declLinesFor_eq_map (g : Graph) (vn : String) :
    declLinesFor g vn = (declScopes g vn).map (fun s => "Declared in scope: " ++ s) := by
  unfold declLinesFor declScopes
  rw [List.map_filterMap]
  exact congrFun (congrArg List.filterMap (funext (fun node => declLine_pointwise vn node))) _

/-- Loop 2 produces exactly the reference scopes, each prefixed. -/
theorem refLinesFor_eq_map (g : Graph) (vn : String) :
    refLinesFor g vn = (refScopes g vn).map (fun s => "Referenced in scope: " ++ s) := by
  unfold refLinesFor refScopes
  rw [List.map_filterMap]
  exact congrFun (congrArg List.filterMap (funext (fun node => refLine_pointwise vn node))) _

/-- Guarded filterMap is filterMap over the filtered list. -/
theorem filterMap_guard (p : α → Bool) (h : α → Option β) :
    ∀ l : List α, List.filterMap (fun x => if p x then h x else none) l
      = (l.filter p).filterMap h := by
  intro l
  induction l with
  | nil => rfl
  | cons x xs ih =>
    by_cases hp : p x <;> simp [List.filter_cons, List.filterMap_cons, hp, ih]

/-- Two strings with the distinct literal prefixes used by
get_full_lineage are never equal. -/
theorem declLine_ne_refLine (a b : String) :
    ("Declared in scope: " ++ a) ≠ ("Referenced in scope: " ++ b) := by
  intro h
  have hd := congrArg String.data h
  rw [String.data_append, String.data_append] at hd
  rw [show ("Declared in scope: " : String).data
      = 'D' :: ("eclared in scope: " : String).data from rfl] at hd
  rw [show ("Referenced in scope: " : String).data
      = 'R' :: ("eferenced in scope: " : String).data from rfl] at hd
  simp at hd

/-- C5: for every tree node, the scope resolver walks the ancestors from
the node's parent to the root, collects the name of each ancestor whose
kind is a function declaration, method definition, or class declaration
(when a name field with extractable text is present), and returns the
collected names outermost-first joined with "::"; if no named
scope-introducing ancestor exists it returns exactly "global".
Stated as: determine_scope coincides with the spec-modelled
specScopePath on every ancestor chain. -/
theorem C5_determine_scope_matches_spec (ancestors : List STree) :
    determine_scope ancestors = specScopePath ancestors := by
  unfold determine_scope specScopePath
  have hpt : (fun n : STree =>
      if scopeDefiningKind n.kind then
        match n.childByFieldLabel "name" with
        | some name_node =>
          match name_node.text with
          | some name => some name
          | none => none
        | none => none
      else none) = scopeAncestorName := by
    funext n
    unfold scopeAncestorName
    split
    · cases hnn : n.childByFieldLabel "name" with
      | none => rfl
      | some nn =>
        cases htx : nn.text with
        | none => simp [Option.bind, htx]
        | some nm => simp [Option.bind, htx]
    · rfl
  rw [hpt, List.filterMap_reverse]
  show (if (List.filterMap scopeAncestorName ancestors).reverse.isEmpty = true then "global"
      else String.intercalate "::" (List.filterMap scopeAncestorName ancestors).reverse)
    = if (List.filterMap scopeAncestorName ancestors).reverse = [] then "global"
      else String.intercalate "::" (List.filterMap scopeAncestorName ancestors).reverse
  cases h : (List.filterMap scopeAncestorName ancestors).reverse with
  | nil => rfl
  | cons a l => rfl

/-- C9: for every name, get_full_lineage on a freshly constructed
tracker (after new(), before any analyze_file call) returns the empty
sequence: the fresh graph has no nodes, so both query loops yield
nothing. -/
theorem C9_fresh_tracker_lineage_empty (vn : String) :
    get_full_lineage DataLineageTracker.new.graph vn = [] := rfl

/-- C1 counterexample: analyzing ex1 (an occurrence of x before its
declarator), the resulting graph violates the claim that a reference is
recorded only when a declaration with that name already exists — the
first reference entry for x sits at a smaller creation index than every
declaration entry for x. -/
theorem C1_reference_recorded_before_declaration :
    ¬ refsOnlyAfterDecl (runGraph ex1) "x" := by decide

/-- C1 amended: the walker records a reference entry for every
identifier occurrence with extractable text, unconditionally — whether
or not a declaration with that name exists in the graph at the time of
the visit; in particular an occurrence preceding its declarator still
produces a reference entry. -/
theorem C1_references_recorded_unconditionally (t : STree) (anc : List STree)
    (g : Graph) (r : Nat) (vn : String) :
    refCount (process_tree t anc g r) vn = refCount g vn + identOcc t vn := by
  rw [refCount_eq_countAttrs, refCount_eq_countAttrs, countAttrs_process_tree,
    contribT_isRef]

/-- C2 counterexample: analyzing ex2 (two declarators of x), both
declaration entries survive in the graph, contradicting the at-most-one
live Declaration invariant. -/
theorem C2_both_declarations_survive :
    declCount (runGraph ex2) "x" = 2 ∧ ¬ declCount (runGraph ex2) "x" ≤ 1 := by decide

/-- C2 amended: every declarator with an extractable name appends a
fresh declaration entry to the graph; declarators sharing a name all
remain (nothing is overwritten), and no per-declaration reference list
exists to be reset — references are free-standing entries matched by
name at query time. -/
theorem C2_declarations_accumulate (t : STree) (anc : List STree)
    (g : Graph) (r : Nat) (vn : String) :
    declCount (process_tree t anc g r) vn = declCount g vn + declOcc t vn := by
  rw [declCount_eq_countAttrs, declCount_eq_countAttrs, countAttrs_process_tree,
    contribT_isDecl]

/-- C3 counterexample: analyzing ex3, the name "outer" has no
declaration entry, yet get_full_lineage returns a non-empty sequence
(the function-name identifier was recorded as a reference), refuting
the claim that absence of a Declaration yields an empty sequence. -/
theorem C3_lineage_nonempty_without_declaration :
    declCount (runGraph ex3) "outer" = 0 ∧ get_full_lineage (runGraph ex3) "outer" ≠ [] := by
  decide

/-- C3 amended: for a name with no declaration entry, get_full_lineage
returns no "Declared in scope" line but one "Referenced in scope" line
per reference entry recorded for that name — so the sequence is empty
exactly when the name also has no reference entries; the query is total
and never signals an error. -/
theorem C3_lineage_without_declaration (g : Graph) (vn : String)
    (h : declCount g vn = 0) :
    get_full_lineage g vn
      = (refScopes g vn).map (fun s => "Referenced in scope: " ++ s) := by
  unfold get_full_lineage
  rw [refLinesFor_eq_map, declLinesFor_eq_map]
  have hf : g.nodes.filter (fun n => isDeclAttrs n.attrs vn) = [] := by
    unfold declCount at h
    rw [List.countP_eq_length_filter] at h
    exact List.length_eq_zero.mp h
  have hds : declScopes g vn = [] := by
    unfold declScopes
    rw [filterMap_guard, hf]
    rfl
  rw [hds]
  rfl

/-- C3 witness: the amended statement evaluated on ex3. -/
theorem C3_witness :
    declCount (runGraph ex3) "outer" = 0 ∧
    get_full_lineage (runGraph ex3) "outer"
      = (refScopes (runGraph ex3) "outer").map (fun s => "Referenced in scope: " ++ s) :=
  ⟨by decide, C3_lineage_without_declaration (runGraph ex3) "outer" (by decide)⟩

/-- C4 counterexample: analyzing ex2 (two declarators of x), the lineage
for x has two "Declared in scope" lines, so its length is not
1 + number of recorded references as the claim requires. -/
theorem C4_lineage_not_single_declaration_line :
    (get_full_lineage (runGraph ex2) "x").length
      ≠ 1 + (refScopes (runGraph ex2) "x").length := by decide

/-- C4 amended: when exactly one declaration entry exists for the name
(carrying scope s), get_full_lineage returns "Declared in scope: s"
followed by exactly one "Referenced in scope: <context>" line per
recorded reference entry, in recorded (graph creation, i.e. pre-order
encounter) order; when several declaration entries exist, one
"Declared" line per entry precedes the reference lines. -/
theorem C4_lineage_single_declaration (g : Graph) (vn : String) (dn : GraphNode) (s : String)
    (h1 : g.nodes.filter (fun n => isDeclAttrs n.attrs vn) = [dn])
    (h2 : dn.attrs.lookup "scope" = some s) :
    get_full_lineage g vn
      = ("Declared in scope: " ++ s)
        :: (refScopes g vn).map (fun c => "Referenced in scope: " ++ c) := by
  unfold get_full_lineage
  rw [refLinesFor_eq_map, declLinesFor_eq_map]
  have hds : declScopes g vn = [s] := by
    unfold declScopes
    rw [filterMap_guard, h1]
    simp [List.filterMap_cons, h2]
  rw [hds]
  rfl

/-- C4 witness: the amended statement evaluated on ex1, whose graph
holds exactly one declaration entry for x. -/
theorem C4_witness :
    get_full_lineage (runGraph ex1) "x"
      = ("Declared in scope: " ++ "global")
        :: (refScopes (runGraph ex1) "x").map (fun c => "Referenced in scope: " ++ c) :=
  C4_lineage_single_declaration (runGraph ex1) "x"
    { attrs := [("type", "declaration"), ("name", "x"), ("scope", "global"),
        ("position", "1,8")], edges := [] }
    "global" (by decide) (by decide)

/-- C6: if reading the input file fails, analyze_file returns that error
and the tracker is returned entirely unchanged (no traversal); if
parsing fails, analyze_file returns the "Failed to parse source code"
error and the tracker's graph and stored tree are unchanged — queries
never observe a partially populated failed analysis (only the stored
source text is updated before the parse, as in the Rust). -/
theorem C6_failed_analysis_preserves_graph (t : DataLineageTracker)
    (sl : Except String Unit) (parse : String → Option STree) :
    (∀ e, analyze_file t (Except.error e) sl parse = (t, Except.error e)) ∧
    (∀ src, parse src = none →
      (analyze_file t (Except.ok src) (Except.ok ()) parse).1.graph = t.graph ∧
      (analyze_file t (Except.ok src) (Except.ok ()) parse).1.tree = t.tree ∧
      (analyze_file t (Except.ok src) (Except.ok ()) parse).2
        = Except.error "Failed to parse source code") := by
  constructor
  · intro e
    rfl
  · intro src hp
    refine ⟨?_, ?_, ?_⟩ <;> simp [analyze_file, hp]

/-- C6 witness: the theorem applied to concrete failing reads and
parses. -/
theorem C6_witness :
    analyze_file DataLineageTracker.new (Except.error "io error") (Except.ok ())
        (fun _ => some ex1) = (DataLineageTracker.new, Except.error "io error") ∧
    ((fun _ => (none : Option STree)) "bad input" = none ∧
      (analyze_file DataLineageTracker.new (Except.ok "bad input") (Except.ok ())
          (fun _ => (none : Option STree))).1.graph = DataLineageTracker.new.graph) :=
  ⟨(C6_failed_analysis_preserves_graph DataLineageTracker.new (Except.ok ())
      (fun _ => some ex1)).1 "io error",
   rfl,
   ((C6_failed_analysis_preserves_graph DataLineageTracker.new (Except.ok ())
      (fun _ => (none : Option STree))).2 "bad input" rfl).1⟩

/-- C7: the analysis result is a deterministic function of the file
contents: whatever the tracker's prior state, a successful analyze_file
call with the same read and parse outcomes succeeds identically and
produces the same graph (hence identical declaration entries, reference
counts and scope strings). -/
theorem C7_analysis_deterministic (t1 t2 : DataLineageTracker)
    (rr : Except String String) (sl : Except String Unit) (parse : String → Option STree)
    (h : (analyze_file t1 rr sl parse).2 = Except.ok ()) :
    (analyze_file t2 rr sl parse).2 = Except.ok () ∧
    (analyze_file t1 rr sl parse).1.graph = (analyze_file t2 rr sl parse).1.graph := by
  rcases rr with e | src
  · simp [analyze_file] at h
  · rcases sl with e | u
    · simp [analyze_file] at h
    · rcases hp : parse src with _ | tr
      · simp [analyze_file, hp] at h
      · constructor <;> simp [analyze_file, hp]

/-- C7 witness: two runs from different prior states on the same
input produce the same graph. -/
theorem C7_witness :
    (analyze_file DataLineageTracker.new (Except.ok "x") (Except.ok ())
        (fun _ => some ex1)).2 = Except.ok () ∧
    ((analyze_file staleTracker (Except.ok "x") (Except.ok ())
        (fun _ => some ex1)).2 = Except.ok () ∧
      (analyze_file DataLineageTracker.new (Except.ok "x") (Except.ok ())
          (fun _ => some ex1)).1.graph
        = (analyze_file staleTracker (Except.ok "x") (Except.ok ())
            (fun _ => some ex1)).1.graph) :=
  ⟨rfl, C7_analysis_deterministic DataLineageTracker.new staleTracker
    (Except.ok "x") (Except.ok ()) (fun _ => some ex1) rfl⟩

/-- C8: a node whose expected name field is absent or has no extractable
text is skipped without error and without any graph entry of its own —
for a declarator and for a scope-introducing node alike the traversal
simply proceeds to the children against an unchanged graph and scope
reference — and the children are still fully traversed (every
identifier occurrence below still yields its reference entry).  The
embedding is total, mirroring that the Rust Result carries no error
source. -/
theorem C8_missing_name_skipped_traversal_continues (k : String) (fl tx : Option String)
    (row col : Nat) (cs : List STree) (anc : List STree) (g : Graph) (r : Nat)
    (hname : ((STree.mk k fl tx row col cs).childByFieldLabel "name").bind STree.text
      = none) :
    ((k == "variable_declarator") = true →
      process_tree (STree.mk k fl tx row col cs) anc g r
        = process_children cs (STree.mk k fl tx row col cs :: anc) g r) ∧
    (scopeDefiningKind k = true →
      process_tree (STree.mk k fl tx row col cs) anc g r
        = process_children cs (STree.mk k fl tx row col cs :: anc) g r) ∧
    (∀ vn, refCount (process_children cs (STree.mk k fl tx row col cs :: anc) g r) vn
      = refCount g vn + identOccList cs vn) := by
  have key : (k == "identifier") = false →
      process_tree (STree.mk k fl tx row col cs) anc g r
        = process_children cs (STree.mk k fl tx row col cs :: anc) g r := by
    intro hid
    rcases hnn : (STree.mk k fl tx row col cs).childByFieldLabel "name" with _ | nn
    · rcases Bool.eq_false_or_eq_true (scopeDefiningKind k) with hsk | hsk <;>
        rcases Bool.eq_false_or_eq_true (k == "variable_declarator") with hvd | hvd <;>
        simp only [process_tree, hnn, hid, hsk, hvd, if_true, if_false, Bool.false_eq_true]
    · rw [hnn] at hname
      have htx : nn.text = none := by simpa using hname
      rcases Bool.eq_false_or_eq_true (scopeDefiningKind k) with hsk | hsk <;>
        rcases Bool.eq_false_or_eq_true (k == "variable_declarator") with hvd | hvd <;>
        simp only [process_tree, hnn, htx, hid, hsk, hvd, if_true, if_false,
          Bool.false_eq_true]
  refine ⟨?_, ?_, ?_⟩
  · intro hvd
    have hk : k = "variable_declarator" := eq_of_beq hvd
    subst hk
    exact key rfl
  · intro hsk
    rcases kind_cases k with rfl | rfl | rfl | rfl | rfl | ⟨h1, h2, h3⟩
    · exact key rfl
    · exact key rfl
    · exact key rfl
    · exact absurd hsk (by decide)
    · exact absurd hsk (by decide)
    · exact key h3
  · intro vn
    rw [refCount_eq_countAttrs, refCount_eq_countAttrs, countAttrs_process_children,
      contribL_isRef]

/-- C8 witness: a declarator with no name field is skipped while its
identifier child is still visited. -/
theorem C8_witness :
    ((STree.mk "variable_declarator" none none 0 0
        [STree.mk "identifier" none (some "y") 0 0 []]).childByFieldLabel "name").bind
        STree.text = none ∧
    process_tree (STree.mk "variable_declarator" none none 0 0
        [STree.mk "identifier" none (some "y") 0 0 []]) [] { nodes := [] } 0
      = process_children [STree.mk "identifier" none (some "y") 0 0 []]
          [STree.mk "variable_declarator" none none 0 0
            [STree.mk "identifier" none (some "y") 0 0 []]] { nodes := [] } 0 ∧
    refCount (process_children [STree.mk "identifier" none (some "y") 0 0 []]
        [STree.mk "variable_declarator" none none 0 0
          [STree.mk "identifier" none (some "y") 0 0 []]] { nodes := [] } 0) "y"
      = refCount { nodes := [] } "y"
        + identOccList [STree.mk "identifier" none (some "y") 0 0 []] "y" :=
  ⟨rfl,
   (C8_missing_name_skipped_traversal_continues "variable_declarator" none none 0 0
      [STree.mk "identifier" none (some "y") 0 0 []] [] { nodes := [] } 0 rfl).1 rfl,
   (C8_missing_name_skipped_traversal_continues "variable_declarator" none none 0 0
      [STree.mk "identifier" none (some "y") 0 0 []] [] { nodes := [] } 0 rfl).2.2 "y"⟩

/-- C10: in every sequence returned by get_full_lineage, every line of
the form "Declared in scope: …" precedes every line of the form
"Referenced in scope: …", even when several declaration entries exist
for the name: the query emits all declaration lines (loop 1) before all
reference lines (loop 2). -/
theorem C10_declared_lines_precede_referenced_lines (g : Graph) (vn : String)
    (i j : Nat) (li lj : String)
    (hi : (get_full_lineage g vn)[i]? = some li)
    (hj : (get_full_lineage g vn)[j]? = some lj)
    (hform_i : ∃ s, li = "Declared in scope: " ++ s)
    (hform_j : ∃ s, lj = "Referenced in scope: " ++ s) :
    i < j := by
  obtain ⟨s, rfl⟩ := hform_i
  obtain ⟨c, rfl⟩ := hform_j
  unfold get_full_lineage at hi hj
  have hi_lt : i < (declLinesFor g vn).length := by
    by_contra hge
    rw [List.getElem?_append_right (Nat.le_of_not_lt hge)] at hi
    have hmem := List.getElem?_mem hi
    rw [refLinesFor_eq_map] at hmem
    obtain ⟨s2, _, heq⟩ := List.mem_map.mp hmem
    exact declLine_ne_refLine s s2 (heq.symm)
  have hj_ge : (declLinesFor g vn).length ≤ j := by
    by_contra hlt
    rw [List.getElem?_append_left (Nat.lt_of_not_le hlt)] at hj
    have hmem := List.getElem?_mem hj
    rw [declLinesFor_eq_map] at hmem
    obtain ⟨s2, _, heq⟩ := List.mem_map.mp hmem
    exact declLine_ne_refLine s2 c heq
  omega

/-- C10 witness: the theorem applied to the lineage of x in ex1. -/
theorem C10_witness :
    (get_full_lineage (runGraph ex1) "x")[0]? = some "Declared in scope: global" ∧
    (get_full_lineage (runGraph ex1) "x")[1]? = some "Referenced in scope: global" ∧
    (0 : Nat) < 1 :=
  ⟨by decide, by decide,
   C10_declared_lines_precede_referenced_lines (runGraph ex1) "x" 0 1
     "Declared in scope: global" "Referenced in scope: global"
     (by decide) (by decide) ⟨"global", rfl⟩ ⟨"global", rfl⟩⟩
